import Mathlib

/-!
# GC runner: safe-point arithmetic and single-flight scheduling

A shallow embedding of `gc_runner.go`.

* Go's fixed-width integers are unbounded `Int`/`Nat` values that are wrapped explicitly
  (`wrapInt64`, `wrapInt32`, `wrapUint64`) at every operation of the source that can
  overflow.  Go's `/` and `%` on signed integers truncate toward zero (`Int.tdiv`,
  `Int.tmod`).
* `time.Time` is the pair of its nanosecond field and its seconds-since-year-1 field.
  Every `Time` the runner handles on the paths embedded here takes the wall-clock branch
  of the library: `time.Unix` produces no monotonic reading, and `lastRun` is only ever
  the zero `Time`.
* The goroutine started by `tick`, the buffered channel `finishCh` and the `select` of
  `RunGCLoop` become an explicit state (`Sys`) and a step function over events (`step`).
-/

namespace GCRunner

/-! ## Machine integers -/

/-- Conversion to Go `int64`: two's-complement wrap-around. -/
def wrapInt64 (x : Int) : Int := (x + 9223372036854775808) % 18446744073709551616 - 9223372036854775808

/-- Conversion to Go `int32`: two's-complement wrap-around. -/
def wrapInt32 (x : Int) : Int := (x + 2147483648) % 4294967296 - 2147483648

/-- Conversion to Go `uint64`: reduction modulo `2^64`. -/
def wrapUint64 (x : Int) : Nat := (x % 18446744073709551616).toNat

/-! ## `time` package: durations and instants -/

/-- Go `time.Millisecond`, in nanoseconds. -/
def Millisecond : Int := 1000000

/-- Go `time.Second`, in nanoseconds. -/
def Second : Int := 1000000000

/-- Go `time.Minute`, in nanoseconds. -/
def Minute : Int := 60 * Second

/-- Go `minDuration`: `-1 << 63`. -/
def minDuration : Int := -9223372036854775808

/-- Go `maxDuration`: `1<<63 - 1`. -/
def maxDuration : Int := 9223372036854775807

/-- Go `time.Time` without a monotonic reading: `nsec` is the nanosecond part of `wall`
(an `int32` once read with `nsec()`), `ext` the `int64` count of seconds since
January 1, year 1. -/
structure Time where
  nsec : Int
  ext : Int
  deriving DecidableEq, Repr

/-- Seconds from January 1, year 1 to January 1, 1970 (`unixToInternal`). -/
def unixToInternal : Int := 62135596800

/-- The constant `internalToUnix` of the `time` package. -/
def internalToUnix : Int := -unixToInternal

/-- The zero `Time` (the value of a `time.Time` field that was never assigned). -/
def zeroTime : Time := ⟨0, 0⟩

/-- Go `time.Unix(sec, nsec)`. -/
def Unix (sec nsec : Int) : Time :=
  let p : Int × Int :=
    if nsec < 0 ∨ nsec ≥ 1000000000 then
      let n := Int.tdiv nsec 1000000000
      let sec1 := wrapInt64 (sec + n)
      let nsec1 := wrapInt64 (nsec - wrapInt64 (n * 1000000000))
      if nsec1 < 0 then (wrapInt64 (sec1 - 1), wrapInt64 (nsec1 + 1000000000))
      else (sec1, nsec1)
    else (sec, nsec)
  ⟨wrapInt32 p.2, wrapInt64 (p.1 + unixToInternal)⟩

/-- Go `(*Time).addSec(d)` for a time without monotonic reading: saturating addition of
seconds. -/
def Time.addSec (t : Time) (d : Int) : Time :=
  let sum := wrapInt64 (t.ext + d)
  if decide (sum > t.ext) = decide (d > 0) then { t with ext := sum }
  else if d > 0 then { t with ext := 9223372036854775807 }
  else { t with ext := -9223372036854775807 }

/-- Go `Time.Add(d)` for a time without monotonic reading. -/
def Time.Add (t : Time) (d : Int) : Time :=
  let dsec := Int.tdiv d 1000000000
  let nsec := wrapInt32 (t.nsec + wrapInt32 (Int.tmod d 1000000000))
  let p : Int × Int :=
    if nsec ≥ 1000000000 then (wrapInt64 (dsec + 1), wrapInt32 (nsec - 1000000000))
    else if nsec < 0 then (wrapInt64 (dsec - 1), wrapInt32 (nsec + 1000000000))
    else (dsec, nsec)
  Time.addSec { t with nsec := p.2 } p.1

/-- Go `Time.UnixNano()`: `(t.unixSec())*1e9 + int64(t.nsec())` in `int64` arithmetic. -/
def Time.UnixNano (t : Time) : Int :=
  wrapInt64 (wrapInt64 (wrapInt64 (t.ext + internalToUnix) * 1000000000) + t.nsec)

/-- Go `Time.Equal(u)` on the wall-clock fields. -/
def Time.Equal (t u : Time) : Bool := decide (t.ext = u.ext) && decide (t.nsec = u.nsec)

/-- Go `Time.Before(u)` on the wall-clock fields. -/
def Time.Before (t u : Time) : Bool :=
  decide (t.ext < u.ext) || (decide (t.ext = u.ext) && decide (t.nsec < u.nsec))

/-- Go `Time.Sub(u)` on the wall-clock fields: the difference `t - u` as a `Duration`,
saturated to `minDuration` / `maxDuration` when it is out of range. -/
def Time.Sub (t u : Time) : Int :=
  let d := wrapInt64 (wrapInt64 (wrapInt64 (t.ext - u.ext) * Second) + wrapInt32 (t.nsec - u.nsec))
  if (u.Add d).Equal t then d
  else if t.Before u then minDuration
  else maxDuration

/-! ## `oracle` package: timestamp layout -/

/-- The constant `physicalShiftBits` of the imported `oracle` package, as a multiplier:
`2^18`. -/
def physicalShift : Nat := 262144

/-- Modelled from the spec: `oracle.ExtractPhysical` belongs to the imported package
`tikv/oracle`, which is not part of the source tree; a timestamp is a physical
millisecond clock above an 18-bit logical counter, so the physical part is
`int64(ts >> 18)`. -/
def ExtractPhysical (ts : Nat) : Int := wrapInt64 ((ts / physicalShift : Nat) : Int)

/-- Modelled from the spec: the logical sequence component of a timestamp, its low 18
bits (the imported `oracle` package is not part of the source tree). -/
def ExtractLogical (ts : Nat) : Int := ((ts % physicalShift : Nat) : Int)

/-- Modelled from the spec: `oracle.GetPhysical` of the imported package `tikv/oracle`:
the instant in milliseconds, `t.UnixNano() / int64(time.Millisecond)`. -/
def GetPhysical (t : Time) : Int := Int.tdiv t.UnixNano Millisecond

/-- Modelled from the spec: `oracle.ComposeTS` of the imported package `tikv/oracle`:
`uint64((physical << 18) + logical)`. -/
def ComposeTS (physical logical : Int) : Nat :=
  wrapUint64 (wrapInt64 (wrapInt64 (physical * physicalShift) + logical))

/-! ## Safe point of a tick (`tick`, lines 93-96) -/

/-- The local `now` of `tick`: the oracle timestamp's physical part as a `Time`. -/
def tickNow (ver : Nat) : Time :=
  let physical := ExtractPhysical ver
  Unix (Int.tdiv physical 1000) (wrapInt64 (Int.tmod physical 1000 * 1000000))

/-- The local `safePointTime` of `tick`: `now.Add(-*gcLifeTime)`. -/
def tickSafePointTime (ver : Nat) (gcLifeTime : Int) : Time :=
  (tickNow ver).Add (wrapInt64 (-gcLifeTime))

/-- The local `safePoint` of `tick`:
`oracle.ComposeTS(oracle.GetPhysical(safePointTime), 0)`. -/
def tickSafePoint (ver : Nat) (gcLifeTime : Int) : Nat :=
  ComposeTS (GetPhysical (tickSafePointTime ver gcLifeTime)) 0

/-- The life-time in whole milliseconds, truncated as Go's `Duration.Milliseconds` does;
used to state properties, not called by the runner. -/
def Milliseconds (d : Int) : Int := Int.tdiv d Millisecond

/-! ## Run-interval gate (`tick`, line 98) -/

/-- Go `time.Since(t)` with the reading of the wall clock passed in: `time.Now().Sub(t)`. -/
def Since (wallNow t : Time) : Int := wallNow.Sub t

/-- The condition `time.Since(r.lastRun) < *runInterval` under which `tick` skips. -/
def intervalNotPassed (lastRun : Time) (runInterval : Int) (wallNow : Time) : Bool :=
  decide (Since wallNow lastRun < runInterval)

/-- The run-interval gate: a run is due when `tick` does not skip on the interval test. -/
def isDue (lastRun : Time) (runInterval : Int) (wallNow : Time) : Bool :=
  !intervalNotPassed lastRun runInterval wallNow

/-- A `Time` whose nanosecond field is normalised and whose seconds field is far from the
ends of `int64` (within `2^62` seconds, about 146 billion years, of year 1). -/
def Time.inRange (t : Time) : Prop :=
  0 ≤ t.nsec ∧ t.nsec < 1000000000 ∧
    -4611686018427387904 ≤ t.ext ∧ t.ext ≤ 4611686018427387904

instance (t : Time) : Decidable t.inRange := by
  unfold Time.inRange; infer_instance

/-- Nanoseconds since January 1, year 1, as an unbounded integer. -/
def Time.nanos (t : Time) : Int := t.ext * 1000000000 + t.nsec

/-- A reading of the wall clock that is not before the Unix epoch. -/
def Time.sinceEpoch (t : Time) : Prop := t.inRange ∧ unixToInternal ≤ t.ext

instance (t : Time) : Decidable t.sinceEpoch := by
  unfold Time.sinceEpoch; infer_instance

/-! ## The runner -/

/-- The command-line flags read by the runner (the package-level `flag` variables). -/
structure Flags where
  distributed : Bool
  concurrency : Int
  runInterval : Int
  gcLifeTime : Int
  deriving DecidableEq, Repr

/-- The mutable fields of `gcRunner` (`store` and `pd` are handles that are only called;
`finishCh` is part of `Sys`). -/
structure gcRunner where
  isRunning : Bool
  lastRun : Time
  deriving DecidableEq, Repr

/-- Go `newGCRunner`: `isRunning` is false and `lastRun` is left at the zero `Time`. -/
def newGCRunner : gcRunner := ⟨false, zeroTime⟩

/-- The two results of `r.store.CurrentVersion()`: the version and whether `err != nil`. -/
structure VersionResult where
  ver : Nat
  err : Bool
  deriving DecidableEq, Repr

/-- The lines the runner writes to its log. -/
inductive LogLine where
  | tick
  | skipRunning
  | errTso
  | skipInterval
  | startGC (safePoint : Nat)
  | gcFailed
  deriving DecidableEq, Repr

/-- What one call of `tick` leaves behind: the runner's fields, the safe point of the
goroutine it started (if any), and the lines it logged. -/
structure TickOut where
  r : gcRunner
  spawned : Option Nat
  log : List LogLine
  deriving DecidableEq, Repr

/-- Go `(*gcRunner).tick`. -/
def tick (f : Flags) (r : gcRunner) (cv : VersionResult) (wallNow : Time) : TickOut :=
  if r.isRunning then
    ⟨r, none, [LogLine.tick, LogLine.skipRunning]⟩
  else
    let errLog : List LogLine := if cv.err then [LogLine.errTso] else []
    let safePoint := tickSafePoint cv.ver f.gcLifeTime
    if intervalNotPassed r.lastRun f.runInterval wallNow then
      ⟨r, none, [LogLine.tick] ++ errLog ++ [LogLine.skipInterval]⟩
    else
      ⟨{ r with isRunning := true }, some safePoint,
        [LogLine.tick] ++ errLog ++ [LogLine.startGC safePoint]⟩

/-- Go `(*gcRunner).RunGC`, given whether the GC job of the `gcworker` package returned an
error: the error is printed and not propagated. -/
def RunGC (_f : Flags) (_safePoint : Nat) (jobErr : Bool) : List LogLine :=
  if jobErr then [LogLine.gcFailed] else []

/-- The goroutine started by `tick`: it runs `RunGC` with its safe point and then sends
on `finishCh`; `returned` tells that `RunGC` has returned and the send is next. -/
structure Sweep where
  safePoint : Nat
  returned : Bool
  deriving DecidableEq, Repr

/-- Capacity of `finishCh` (`make(chan interface{}, 1)`). -/
def finishChCap : Nat := 1

/-- The runner together with its goroutines and channel: `sweeps` are the goroutines that
have not sent yet, `finishCh` the number of messages buffered in the channel, `stopped`
tells that `RunGCLoop` has returned; `dispatched` (safe points passed to `RunGC`), `sent`
(sends completed on `finishCh`) and `log` record what has happened. -/
structure Sys where
  r : gcRunner
  sweeps : List Sweep
  finishCh : Nat
  stopped : Bool
  dispatched : List Nat
  sent : Nat
  log : List LogLine
  deriving DecidableEq, Repr

/-- The state in which `RunGCLoop` starts: a fresh `newGCRunner`. -/
def Sys.init : Sys := ⟨newGCRunner, [], 0, false, [], 0, []⟩

/-- What can happen next: the ticker fires and the loop runs `tick`; the `RunGC` call of
the `i`-th goroutine returns; the `i`-th goroutine sends on `finishCh`; the loop receives
from `finishCh`; the loop sees `ctx.Done()`. -/
inductive Event where
  | tick (cv : VersionResult) (wallNow : Time)
  | gcReturn (i : Nat) (jobErr : Bool)
  | send (i : Nat)
  | recv
  | ctxDone
  deriving DecidableEq, Repr

/-- The send of goroutine `i` would block: it is at the send and the channel is full. -/
def Sys.sendBlocked (s : Sys) (i : Nat) : Bool :=
  match s.sweeps[i]? with
  | some sw => sw.returned && decide (finishChCap ≤ s.finishCh)
  | none => false

/-- One step of the runner; an event that cannot happen in `s` leaves `s` as it is. -/
def step (f : Flags) (s : Sys) : Event → Sys
  | Event.tick cv wallNow =>
    if s.stopped then s
    else
      let out := tick f s.r cv wallNow
      match out.spawned with
      | some safePoint =>
        { s with r := out.r, sweeps := s.sweeps ++ [⟨safePoint, false⟩],
                 dispatched := s.dispatched ++ [safePoint], log := s.log ++ out.log }
      | none => { s with r := out.r, log := s.log ++ out.log }
  | Event.gcReturn i jobErr =>
    match s.sweeps[i]? with
    | some sw =>
      if sw.returned then s
      else { s with sweeps := s.sweeps.set i { sw with returned := true },
                    log := s.log ++ RunGC f sw.safePoint jobErr }
    | none => s
  | Event.send i =>
    match s.sweeps[i]? with
    | some sw =>
      if sw.returned && decide (s.finishCh < finishChCap) then
        { s with sweeps := s.sweeps.eraseIdx i, finishCh := s.finishCh + 1, sent := s.sent + 1 }
      else s
    | none => s
  | Event.recv =>
    if s.stopped || decide (s.finishCh = 0) then s
    else { s with r := { s.r with isRunning := false }, finishCh := s.finishCh - 1 }
  | Event.ctxDone => { s with stopped := true }

/-- Run a sequence of events from `s`. -/
def run (f : Flags) (s : Sys) (evs : List Event) : Sys := evs.foldl (step f) s

/-- The tick events with the given oracle results and wall-clock readings. -/
def tickEvents (l : List (VersionResult × Time)) : List Event :=
  l.map (fun p => Event.tick p.1 p.2)

/-- Goroutines that have not sent plus messages buffered in `finishCh` are at most one,
and exactly one when `isRunning` is set. -/
def Sys.singleFlight (s : Sys) : Prop :=
  s.sweeps.length + s.finishCh ≤ 1 ∧
    (s.sweeps.length + s.finishCh = 1 ↔ s.r.isRunning = true)

/-- As long as the loop has received no completion, the number of dispatched sweeps is one
if `isRunning` is set and zero otherwise. -/
def Sys.firstFlight (s : Sys) : Prop :=
  s.dispatched.length = if s.r.isRunning then 1 else 0

/-- From `s`: the `RunGC` call of the first goroutine returns (with an error or not), then
the ticks `ticksA` fire. -/
def afterReturn (f : Flags) (s : Sys) (jobErr : Bool) (ticksA : List (VersionResult × Time)) :
    Sys :=
  run f s (Event.gcReturn 0 jobErr :: tickEvents ticksA)

/-- After `afterReturn`: the first goroutine sends on `finishCh`, then the ticks `ticksB`
fire. -/
def afterSend (f : Flags) (s : Sys) (jobErr : Bool)
    (ticksA ticksB : List (VersionResult × Time)) : Sys :=
  run f (afterReturn f s jobErr ticksA) (Event.send 0 :: tickEvents ticksB)

/-- After `afterSend`: the loop receives from `finishCh`. -/
def afterRecv (f : Flags) (s : Sys) (jobErr : Bool)
    (ticksA ticksB : List (VersionResult × Time)) : Sys :=
  step f (afterSend f s jobErr ticksA ticksB) Event.recv

/-- The flags of the scenarios: distributed GC, run interval and life-time of 10 minutes. -/
def scenarioFlags : Flags := ⟨true, 2, Minute * 10, Minute * 10⟩

/-- A tick at Unix time `1,700,000,000 s + k min`, the oracle answering with that instant
and no error. -/
def scenarioTick (k : Nat) : VersionResult × Time :=
  (⟨(1700000000000 + 60000 * k) * 262144, false⟩, ⟨0, 63835596800 + 60 * (k : Int)⟩)

/-- The event is the loop receiving from `finishCh`. -/
def Event.isRecv : Event → Bool
  | Event.recv => true
  | _ => false

/-! ## Startup (`main`, `createClient`) -/

/-- The observable steps of `main` up to the start of the loop. -/
inductive StartupStep where
  | flagParse
  | fatalLifeTime
  | logConfig
  | driverOpen
  | fatalOpenDb
  | pdNewClient
  | fatalPdClient
  | signalNotify
  | runGCLoop
  deriving DecidableEq, Repr

/-- Go `createClient`, given whether `driver.Open` and `pd.NewClient` fail: the steps
taken, and whether both clients were created (`log.Fatalf` ends the process). -/
def createClient (openErr pdErr : Bool) : List StartupStep × Bool :=
  if openErr then ([StartupStep.driverOpen, StartupStep.fatalOpenDb], false)
  else if pdErr then
    ([StartupStep.driverOpen, StartupStep.pdNewClient, StartupStep.fatalPdClient], false)
  else ([StartupStep.driverOpen, StartupStep.pdNewClient], true)

/-- Go `main` up to the call of `RunGCLoop`: the steps taken, in order. -/
def mainStartup (f : Flags) (openErr pdErr : Bool) : List StartupStep :=
  if f.gcLifeTime < Minute * 10 then [StartupStep.flagParse, StartupStep.fatalLifeTime]
  else
    let c := createClient openErr pdErr
    [StartupStep.flagParse, StartupStep.logConfig] ++ c.1 ++
      (if c.2 then [StartupStep.signalNotify, StartupStep.runGCLoop] else [])

/-! ## Arithmetic helpers -/

theorem tdiv_nonneg_eq (a b : Int) (ha : 0 ≤ a) (hb : 0 ≤ b) : a.tdiv b = a / b :=
  Int.tdiv_eq_ediv ha hb

theorem tdiv_nonpos_eq (a b : Int) (ha : a ≤ 0) (hb : 0 ≤ b) : a.tdiv b = -((-a) / b) := by
  have h := Int.tdiv_eq_ediv (a := -a) (b := b) (by omega) hb
  rw [Int.neg_tdiv] at h
  omega

theorem wrapInt64_id (x : Int) (h0 : -9223372036854775808 ≤ x) (h1 : x < 9223372036854775808) :
    wrapInt64 x = x := by
  unfold wrapInt64
  omega

theorem wrapInt32_id (x : Int) (h0 : -2147483648 ≤ x) (h1 : x < 2147483648) :
    wrapInt32 x = x := by
  unfold wrapInt32
  omega

theorem wrapInt64_add_wrap (y b : Int) : wrapInt64 (wrapInt64 y + b) = wrapInt64 (y + b) := by
  unfold wrapInt64
  omega

/-- Truncated quotient and remainder by `10^9` of an `int64`. -/
theorem tdiv_tmod_billion (d : Int) (h0 : -9223372036854775808 ≤ d)
    (h1 : d < 9223372036854775808) :
    d = 1000000000 * Int.tdiv d 1000000000 + Int.tmod d 1000000000 ∧
    -1000000000 < Int.tmod d 1000000000 ∧ Int.tmod d 1000000000 < 1000000000 ∧
    -9223372037 ≤ Int.tdiv d 1000000000 ∧ Int.tdiv d 1000000000 ≤ 9223372037 := by
  have hm := Int.tmod_def d 1000000000
  rcases le_total 0 d with hd | hd
  · have := tdiv_nonneg_eq d 1000000000 hd (by norm_num)
    omega
  · have := tdiv_nonpos_eq d 1000000000 hd (by norm_num)
    omega

theorem milliseconds_eq (d : Int) (h : 0 ≤ d) : Milliseconds d = d / 1000000 :=
  tdiv_nonneg_eq d 1000000 h (by norm_num)

/-! ## `Time.Add` and `Time.UnixNano` in closed form -/

/-- Away from the ends of `int64`, `Add` is exact addition of nanoseconds, normalised. -/
theorem add_eq (t : Time) (d : Int) (ht : t.inRange) (h0 : -9223372036854775808 ≤ d)
    (h1 : d < 9223372036854775808) :
    t.Add d = ⟨(t.nsec + d) % 1000000000, t.ext + (t.nsec + d) / 1000000000⟩ := by
  obtain ⟨hn0, hn1, he0, he1⟩ := ht
  obtain ⟨hd, hr0, hr1, hq0, hq1⟩ := tdiv_tmod_billion d h0 h1
  unfold Time.Add
  simp only []
  generalize Int.tdiv d 1000000000 = q at hd hq0 hq1 ⊢
  generalize Int.tmod d 1000000000 = r at hd hr0 hr1 ⊢
  rw [wrapInt32_id r (by omega) (by omega), wrapInt32_id (t.nsec + r) (by omega) (by omega)]
  subst hd
  by_cases c1 : t.nsec + r ≥ 1000000000
  · simp only [c1, if_true]
    rw [wrapInt64_id (q + 1) (by omega) (by omega),
      wrapInt32_id (t.nsec + r - 1000000000) (by omega) (by omega)]
    unfold Time.addSec
    simp only []
    rw [wrapInt64_id (t.ext + (q + 1)) (by omega) (by omega)]
    have hc : decide (t.ext + (q + 1) > t.ext) = decide (q + 1 > 0) := by
      apply Bool.decide_congr; omega
    simp only [hc, if_true]
    congr 1 <;> omega
  · simp only [c1, if_false]
    by_cases c2 : t.nsec + r < 0
    · simp only [c2, if_true]
      rw [wrapInt64_id (q - 1) (by omega) (by omega),
        wrapInt32_id (t.nsec + r + 1000000000) (by omega) (by omega)]
      unfold Time.addSec
      simp only []
      rw [wrapInt64_id (t.ext + (q - 1)) (by omega) (by omega)]
      have hc : decide (t.ext + (q - 1) > t.ext) = decide (q - 1 > 0) := by
        apply Bool.decide_congr; omega
      simp only [hc, if_true]
      congr 1 <;> omega
    · simp only [c2, if_false]
      unfold Time.addSec
      simp only []
      rw [wrapInt64_id (t.ext + q) (by omega) (by omega)]
      have hc : decide (t.ext + q > t.ext) = decide (q > 0) := by
        apply Bool.decide_congr; omega
      simp only [hc, if_true]
      congr 1 <;> omega

theorem unixNano_eq (t : Time) (ht : t.inRange) :
    t.UnixNano = wrapInt64 (t.nanos - 62135596800000000000) := by
  obtain ⟨hn0, hn1, he0, he1⟩ := ht
  unfold Time.UnixNano Time.nanos internalToUnix unixToInternal
  rw [wrapInt64_id (t.ext + -62135596800) (by omega) (by omega), wrapInt64_add_wrap]
  congr 1
  ring

/-! ## The safe point in closed form -/

theorem extractPhysical_eq (ver : Nat) (h : ver < 18446744073709551616) :
    ExtractPhysical ver = ((ver / 262144 : Nat) : Int) := by
  unfold ExtractPhysical physicalShift
  apply wrapInt64_id <;> omega

theorem extractPhysical_bounds (ver : Nat) (h : ver < 18446744073709551616) :
    0 ≤ ExtractPhysical ver ∧ ExtractPhysical ver < 70368744177664 := by
  rw [extractPhysical_eq ver h]
  omega

theorem extractPhysical_mono (v w : Nat) (hw : w < 18446744073709551616) (h : v ≤ w) :
    ExtractPhysical v ≤ ExtractPhysical w := by
  rw [extractPhysical_eq v (by omega), extractPhysical_eq w hw]
  have := Nat.div_le_div_right (c := 262144) h
  omega

theorem tickNow_eq (ver : Nat) (h : ver < 18446744073709551616) :
    tickNow ver =
      ⟨(ExtractPhysical ver % 1000) * 1000000, ExtractPhysical ver / 1000 + 62135596800⟩ := by
  obtain ⟨h0, h1⟩ := extractPhysical_bounds ver h
  unfold tickNow
  simp only []
  generalize ExtractPhysical ver = p at h0 h1 ⊢
  have hd : Int.tdiv p 1000 = p / 1000 := tdiv_nonneg_eq p 1000 h0 (by norm_num)
  have hm : Int.tmod p 1000 = p % 1000 := by
    rw [Int.tmod_def, hd]; omega
  rw [hd, hm, wrapInt64_id (p % 1000 * 1000000) (by omega) (by omega)]
  unfold Unix unixToInternal
  have hc : ¬ (p % 1000 * 1000000 < 0 ∨ p % 1000 * 1000000 ≥ 1000000000) := by omega
  simp only [hc, if_false]
  rw [wrapInt32_id (p % 1000 * 1000000) (by omega) (by omega),
    wrapInt64_id (p / 1000 + 62135596800) (by omega) (by omega)]

/-- The milliseconds that `tick` hands to `ComposeTS`: the `int64` nanosecond count
`physical * 10^6 - gcLifeTime`, wrapped, divided by `10^6` toward zero. -/
theorem getPhysical_safePointTime (ver : Nat) (L : Int) (h : ver < 18446744073709551616)
    (hL0 : -9223372036854775808 < L) (hL1 : L < 9223372036854775808) :
    GetPhysical (tickSafePointTime ver L) =
      Int.tdiv (wrapInt64 (ExtractPhysical ver * 1000000 - L)) 1000000 := by
  obtain ⟨h0, h1⟩ := extractPhysical_bounds ver h
  unfold GetPhysical tickSafePointTime Millisecond
  rw [tickNow_eq ver h, wrapInt64_id (-L) (by omega) (by omega)]
  generalize ExtractPhysical ver = p at h0 h1 ⊢
  have hr : Time.inRange ⟨p % 1000 * 1000000, p / 1000 + 62135596800⟩ := by
    unfold Time.inRange
    simp only []
    omega
  rw [add_eq _ (-L) hr (by omega) (by omega)]
  simp only []
  rw [unixNano_eq]
  · unfold Time.nanos
    simp only []
    congr 2
    omega
  · unfold Time.inRange
    simp only []
    omega

theorem extractLogical_composeTS (x : Int) : ExtractLogical (ComposeTS x 0) = 0 := by
  unfold ExtractLogical ComposeTS wrapUint64 physicalShift
  simp only [Nat.cast_ofNat, add_zero]
  unfold wrapInt64
  omega

theorem composeTS_nonneg (x : Int) (h0 : 0 ≤ x) (h1 : x < 35184372088832) :
    ComposeTS x 0 = (x * 262144).toNat := by
  unfold ComposeTS wrapUint64 physicalShift
  simp only [Nat.cast_ofNat, add_zero]
  rw [wrapInt64_id (x * 262144) (by omega) (by omega),
    wrapInt64_id (x * 262144) (by omega) (by omega)]
  congr 1
  omega

theorem composeTS_neg (x : Int) (h0 : x < 0) (h1 : -35184372088832 ≤ x) :
    ComposeTS x 0 = (18446744073709551616 + x * 262144).toNat := by
  unfold ComposeTS wrapUint64 physicalShift
  simp only [Nat.cast_ofNat, add_zero]
  rw [wrapInt64_id (x * 262144) (by omega) (by omega),
    wrapInt64_id (x * 262144) (by omega) (by omega)]
  congr 1
  omega

theorem tickSafePoint_eq (ver : Nat) (L : Int) (h : ver < 18446744073709551616)
    (hL0 : -9223372036854775808 < L) (hL1 : L < 9223372036854775808) :
    tickSafePoint ver L =
      ComposeTS (Int.tdiv (wrapInt64 (ExtractPhysical ver * 1000000 - L)) 1000000) 0 := by
  unfold tickSafePoint
  rw [getPhysical_safePointTime ver L h hL0 hL1]

/-- The composed safe point as a function of the nanosecond count `D` of the safe-point
instant: zero just below the epoch, exact up to `2^63`, wrapped above. -/
theorem composeTS_of_nanos (D : Int) (h0 : -1000000 < D) (h1 : D ≤ 18446744073708551616) :
    ComposeTS (Int.tdiv (wrapInt64 D) 1000000) 0 =
      if D < 0 then 0
      else if D < 9223372036854775808 then (D / 1000000 * 262144).toNat
      else (18446744073709551616 - (18446744073709551616 - D) / 1000000 * 262144).toNat := by
  by_cases c1 : D < 0
  · rw [wrapInt64_id D (by omega) (by omega), tdiv_nonpos_eq D 1000000 (by omega) (by norm_num)]
    have : (-D) / 1000000 = 0 := by omega
    rw [this, composeTS_nonneg _ (by norm_num) (by norm_num)]
    simp [c1]
  · by_cases c2 : D < 9223372036854775808
    · rw [wrapInt64_id D (by omega) (by omega), tdiv_nonneg_eq D 1000000 (by omega) (by norm_num),
        composeTS_nonneg _ (by omega) (by omega)]
      simp [c1, c2]
    · have hw : wrapInt64 D = D - 18446744073709551616 := by
        unfold wrapInt64; omega
      rw [hw, tdiv_nonpos_eq _ 1000000 (by omega) (by norm_num),
        composeTS_neg _ (by omega) (by omega)]
      simp only [c1, c2, if_false]
      congr 1
      have : -(D - 18446744073709551616) = 18446744073709551616 - D := by ring
      rw [this]
      ring

/-- Bounds on the nanosecond count of the safe-point instant. -/
theorem nanos_lower (p L : Int) (hL : Milliseconds L ≤ p) (hp : 0 ≤ p) :
    -1000000 < p * 1000000 - L := by
  rcases le_total 0 L with h | h
  · rw [milliseconds_eq L h] at hL
    omega
  · omega

/-! ## Safe-point claims -/

/-- C1 (amended): for every 64-bit oracle timestamp and every life-time of at least 10
minutes for which the safe-point instant `physical * 10^6 - lifeTime` nanoseconds is not
before the Unix epoch and fits Go's `int64` nanosecond count, the safe point computed by
`tick` has physical component `now.physical - ⌈lifeTime / 1ms⌉` (which is
`now.physical - lifeTime_ms` when the life-time is a whole number of milliseconds) and
logical component 0; with `now.physical = 1,700,000,000,000` and a life-time of 10 minutes
the physical component is `1,699,999,400,000`. -/
theorem safePoint_components (ver : Nat) (gcLifeTime : Int)
    (hver : ver < 18446744073709551616)
    (hlife : Minute * 10 ≤ gcLifeTime) (hdur : gcLifeTime ≤ maxDuration)
    (hlow : gcLifeTime ≤ ExtractPhysical ver * 1000000)
    (hhigh : ExtractPhysical ver * 1000000 - gcLifeTime ≤ 9223372036854775807) :
    ExtractPhysical (tickSafePoint ver gcLifeTime)
        = ExtractPhysical ver - (gcLifeTime + 999999) / 1000000 ∧
    (gcLifeTime % 1000000 = 0 →
      ExtractPhysical (tickSafePoint ver gcLifeTime)
        = ExtractPhysical ver - Milliseconds gcLifeTime) ∧
    ExtractLogical (tickSafePoint ver gcLifeTime) = 0 ∧
    (ExtractPhysical ver = 1700000000000 → gcLifeTime = Minute * 10 →
      ExtractPhysical (tickSafePoint ver gcLifeTime) = 1699999400000 ∧
      ExtractLogical (tickSafePoint ver gcLifeTime) = 0) := by
  unfold Minute Second at hlife
  unfold maxDuration at hdur
  obtain ⟨h0, h1⟩ := extractPhysical_bounds ver hver
  have hsp := tickSafePoint_eq ver gcLifeTime hver (by omega) (by omega)
  have hlog : ExtractLogical (tickSafePoint ver gcLifeTime) = 0 := by
    rw [hsp]; exact extractLogical_composeTS _
  rw [composeTS_of_nanos _ (by omega) (by omega)] at hsp
  have c1 : ¬ (ExtractPhysical ver * 1000000 - gcLifeTime < 0) := by omega
  have c2 : ExtractPhysical ver * 1000000 - gcLifeTime < 9223372036854775808 := by omega
  simp only [c1, c2, if_false, if_true] at hsp
  have hms := milliseconds_eq gcLifeTime (by omega)
  have hphys : ExtractPhysical (tickSafePoint ver gcLifeTime)
      = (ExtractPhysical ver * 1000000 - gcLifeTime) / 1000000 := by
    rw [hsp, extractPhysical_eq _ (by omega)]
    omega
  refine ⟨?_, ?_, hlog, ?_⟩
  · rw [hphys]; omega
  · intro hw
    rw [hphys, hms]; omega
  · intro hp hl
    refine ⟨?_, hlog⟩
    rw [hphys, hp, hl]
    unfold Minute Second
    norm_num

/-- Witness for C1: Scenario A, with a non-zero logical counter in the oracle timestamp. -/
theorem safePoint_components_witness :
    ExtractPhysical (1700000000000 * 262144 + 5) = 1700000000000 ∧
    ExtractPhysical (tickSafePoint (1700000000000 * 262144 + 5) (Minute * 10))
        = 1699999400000 ∧
    ExtractLogical (tickSafePoint (1700000000000 * 262144 + 5) (Minute * 10)) = 0 :=
  ⟨by decide,
   ((safePoint_components (1700000000000 * 262144 + 5) (Minute * 10) (by decide) (by decide)
      (by decide) (by decide) (by decide)).2.2.2 (by decide) rfl).1,
   (safePoint_components (1700000000000 * 262144 + 5) (Minute * 10) (by decide) (by decide)
      (by decide) (by decide) (by decide)).2.2.1⟩

/-- C1 fails as stated: (a) at oracle timestamp 0 the physical component of the safe point
is `2^46 - 600000`, not `0 - 600000`; (b) with a life-time of 10 minutes and one
nanosecond the physical component is one millisecond below `physical - 600000`; (c) for a
physical part whose safe-point instant is past `2^63` nanoseconds the result has wrapped. -/
theorem safePoint_components_counterexample :
    (Minute * 10 ≤ Minute * 10 ∧
      ExtractPhysical (tickSafePoint 0 (Minute * 10)) = 70368743577664 ∧
      ExtractPhysical 0 - Milliseconds (Minute * 10) = -600000) ∧
    (Minute * 10 ≤ Minute * 10 + 1 ∧
      ExtractPhysical (tickSafePoint (1700000000000 * 262144) (Minute * 10 + 1))
        = 1699999399999 ∧
      ExtractPhysical (1700000000000 * 262144) - Milliseconds (Minute * 10 + 1)
        = 1699999400000) ∧
    (ExtractPhysical (tickSafePoint (9223372636855 * 262144) (Minute * 10))
        = 61145372140810 ∧
      ExtractPhysical (9223372636855 * 262144) - Milliseconds (Minute * 10)
        = 9223372036855) := by
  decide

/-- C5 (amended): for every 64-bit oracle timestamp and every life-time of at least 10
minutes (whole milliseconds or not) such that the safe-point instant
`physical * 10^6 - lifeTime` nanoseconds after the Unix epoch is not negative and fits Go's
`int64` nanosecond count, the safe point handed to the executor is older than `now` by at
least the whole life-time: counted in nanoseconds,
`ExtractPhysical(safePoint) * 10^6 + lifeTime ≤ ExtractPhysical(now) * 10^6`; counted in
milliseconds with the life-time rounded up, and so also with the life-time truncated,
`ExtractPhysical(safePoint) + lifeTime_ms ≤ ExtractPhysical(now)`; the safe point is below
`now` as an unsigned timestamp; and nothing wraps: the milliseconds given to `ComposeTS`
are non-negative and the composed value is exactly `milliseconds * 2^18`. -/
theorem safePoint_older_by_lifeTime (ver : Nat) (gcLifeTime : Int)
    (hver : ver < 18446744073709551616)
    (hlife : Minute * 10 ≤ gcLifeTime) (hdur : gcLifeTime ≤ maxDuration)
    (hlow : gcLifeTime ≤ ExtractPhysical ver * 1000000)
    (hhigh : ExtractPhysical ver * 1000000 - gcLifeTime ≤ 9223372036854775807) :
    ExtractPhysical (tickSafePoint ver gcLifeTime) * 1000000 + gcLifeTime
        ≤ ExtractPhysical ver * 1000000 ∧
    ExtractPhysical (tickSafePoint ver gcLifeTime) + (gcLifeTime + 999999) / 1000000
        ≤ ExtractPhysical ver ∧
    ExtractPhysical (tickSafePoint ver gcLifeTime) + Milliseconds gcLifeTime
        ≤ ExtractPhysical ver ∧
    0 ≤ GetPhysical (tickSafePointTime ver gcLifeTime) ∧
    (tickSafePoint ver gcLifeTime : Int)
        = GetPhysical (tickSafePointTime ver gcLifeTime) * 262144 ∧
    tickSafePoint ver gcLifeTime < ver := by
  unfold Minute Second at hlife
  unfold maxDuration at hdur
  obtain ⟨h0, h1⟩ := extractPhysical_bounds ver hver
  have hsp := tickSafePoint_eq ver gcLifeTime hver (by omega) (by omega)
  have hg := getPhysical_safePointTime ver gcLifeTime hver (by omega) (by omega)
  rw [composeTS_of_nanos _ (by omega) (by omega)] at hsp
  rw [wrapInt64_id _ (by omega) (by omega)] at hg
  have hms := milliseconds_eq gcLifeTime (by omega)
  have hpe := extractPhysical_eq ver hver
  rw [hms]
  have c1 : ¬ (ExtractPhysical ver * 1000000 - gcLifeTime < 0) := by omega
  have c2 : ExtractPhysical ver * 1000000 - gcLifeTime < 9223372036854775808 := by omega
  simp only [c1, c2, if_false, if_true] at hsp
  rw [tdiv_nonneg_eq _ 1000000 (by omega) (by norm_num)] at hg
  rw [hsp, hg, extractPhysical_eq _ (by omega)]
  refine ⟨by omega, by omega, by omega, by omega, by omega, ?_⟩
  omega

/-- Witness for C5: a life-time of 10 minutes and 1 nanosecond at physical time
1,700,000,000,000 ms: the safe point's physical part is 1,699,999,399,999 ms, so it is
older than `now` by 600,001 ms, at least the life-time. -/
theorem safePoint_older_by_lifeTime_witness :
    ExtractPhysical (tickSafePoint (1700000000000 * 262144 + 7) (Minute * 10 + 1)) * 1000000
        + (Minute * 10 + 1) ≤ ExtractPhysical (1700000000000 * 262144 + 7) * 1000000 ∧
    ExtractPhysical (tickSafePoint (1700000000000 * 262144 + 7) (Minute * 10 + 1))
        + Milliseconds (Minute * 10 + 1) ≤ ExtractPhysical (1700000000000 * 262144 + 7) ∧
    tickSafePoint (1700000000000 * 262144 + 7) (Minute * 10 + 1)
        < 1700000000000 * 262144 + 7 :=
  have h := safePoint_older_by_lifeTime (1700000000000 * 262144 + 7) (Minute * 10 + 1)
    (by decide) (by decide) (by decide) (by decide) (by decide)
  ⟨h.1, h.2.2.1, h.2.2.2.2.2⟩

/-- C5 fails as stated: (a) at oracle timestamp 0 (physical part below the life-time)
`tick` gives `ComposeTS` the negative millisecond count -600000 and the composition wraps
to a safe point above `now`; (b) at a physical part whose safe-point instant is past `2^63`
nanoseconds the nanosecond count has wrapped and the safe point is again above `now`;
(c) with a life-time of 600,000,999,999 ns, accepted at startup, and a timestamp whose
physical part is 600,000 ms, the safe-point instant is 999,999 ns before the epoch, the
division rounds it toward zero to the safe point 0, which is only 600,000,000,000 ns older
than `now`, less than the life-time, although the comparison in truncated milliseconds
holds. -/
theorem safePoint_older_by_lifeTime_counterexample :
    (GetPhysical (tickSafePointTime 0 (Minute * 10)) = -600000 ∧
      tickSafePoint 0 (Minute * 10) = 18446743916423151616 ∧
      ¬ (ExtractPhysical (tickSafePoint 0 (Minute * 10)) + Milliseconds (Minute * 10)
          ≤ ExtractPhysical 0)) ∧
    (9223372636855 * 262144 < 18446744073709551616 ∧
      9223372636855 * 262144 < tickSafePoint (9223372636855 * 262144) (Minute * 10) ∧
      ¬ (ExtractPhysical (tickSafePoint (9223372636855 * 262144) (Minute * 10))
          + Milliseconds (Minute * 10) ≤ ExtractPhysical (9223372636855 * 262144))) ∧
    (Minute * 10 ≤ 600000999999 ∧
      Milliseconds 600000999999 ≤ ExtractPhysical (600000 * 262144) ∧
      tickSafePoint (600000 * 262144) 600000999999 = 0 ∧
      ExtractPhysical (tickSafePoint (600000 * 262144) 600000999999) + Milliseconds 600000999999
        ≤ ExtractPhysical (600000 * 262144) ∧
      ¬ (ExtractPhysical (tickSafePoint (600000 * 262144) 600000999999) * 1000000
          + 600000999999 ≤ ExtractPhysical (600000 * 262144) * 1000000)) := by
  decide

theorem composeTS_of_nanos_mono (D1 D2 : Int) (h : D1 ≤ D2)
    (h1 : D2 ≤ 18446744073708551616) :
    (if D1 < 0 then 0
      else if D1 < 9223372036854775808 then (D1 / 1000000 * 262144).toNat
      else (18446744073709551616 - (18446744073709551616 - D1) / 1000000 * 262144).toNat) ≤
    (if D2 < 0 then 0
      else if D2 < 9223372036854775808 then (D2 / 1000000 * 262144).toNat
      else (18446744073709551616 - (18446744073709551616 - D2) / 1000000 * 262144).toNat) := by
  by_cases a1 : D1 < 0
  · simp only [a1, if_true]
    exact Nat.zero_le _
  · have a2 : ¬ D2 < 0 := by omega
    simp only [a1, a2, if_false]
    by_cases b1 : D1 < 9223372036854775808
    · simp only [b1, if_true]
      by_cases b2 : D2 < 9223372036854775808
      · simp only [b2, if_true]
        have hq : D1 / 1000000 ≤ D2 / 1000000 := Int.ediv_le_ediv (by norm_num) h
        apply Int.toNat_le_toNat
        omega
      · simp only [b2, if_false]
        have hq1 : D1 / 1000000 ≤ 9223372036854 := by omega
        have hq2 : (18446744073709551616 - D2) / 1000000 ≤ 9223372036854 := by omega
        apply Int.toNat_le_toNat
        omega
    · have b2 : ¬ D2 < 9223372036854775808 := by omega
      simp only [b1, b2, if_false]
      have hq : (18446744073709551616 - D2) / 1000000 ≤ (18446744073709551616 - D1) / 1000000 :=
        Int.ediv_le_ediv (by norm_num) (by omega)
      apply Int.toNat_le_toNat
      omega

/-- C8 (amended): for every life-time and every two 64-bit oracle timestamps
`now1 ≤ now2` whose physical parts are at least the life-time in milliseconds, if the
safe-point instant of `now2`, `physical * 10^6 - lifeTime` nanoseconds after the Unix
epoch, is at most `2^64 - 10^6`, then the safe point of `now1` is at most the safe point
of `now2`. -/
theorem safePoint_monotone (ver1 ver2 : Nat) (gcLifeTime : Int)
    (hle : ver1 ≤ ver2) (hver : ver2 < 18446744073709551616)
    (hmin : minDuration < gcLifeTime) (hdur : gcLifeTime ≤ maxDuration)
    (hlow1 : Milliseconds gcLifeTime ≤ ExtractPhysical ver1)
    (hlow2 : Milliseconds gcLifeTime ≤ ExtractPhysical ver2)
    (hhigh : ExtractPhysical ver2 * 1000000 - gcLifeTime ≤ 18446744073708551616) :
    tickSafePoint ver1 gcLifeTime ≤ tickSafePoint ver2 gcLifeTime := by
  unfold minDuration at hmin
  unfold maxDuration at hdur
  have hver1 : ver1 < 18446744073709551616 := by omega
  obtain ⟨h0, h1⟩ := extractPhysical_bounds ver1 hver1
  obtain ⟨k0, k1⟩ := extractPhysical_bounds ver2 hver
  have hmono := extractPhysical_mono ver1 ver2 hver hle
  have hD1 := nanos_lower (ExtractPhysical ver1) gcLifeTime hlow1 h0
  have hD2 := nanos_lower (ExtractPhysical ver2) gcLifeTime hlow2 k0
  rw [tickSafePoint_eq ver1 gcLifeTime hver1 (by omega) (by omega),
    tickSafePoint_eq ver2 gcLifeTime hver (by omega) (by omega),
    composeTS_of_nanos _ hD1 (by omega), composeTS_of_nanos _ hD2 hhigh]
  exact composeTS_of_nanos_mono _ _ (by omega) hhigh

/-- Witness for C8: two timestamps one minute apart at a life-time of 10 minutes. -/
theorem safePoint_monotone_witness :
    tickSafePoint (1700000000000 * 262144 + 9) (Minute * 10)
      ≤ tickSafePoint (1700000060000 * 262144) (Minute * 10) :=
  safePoint_monotone (1700000000000 * 262144 + 9) (1700000060000 * 262144) (Minute * 10)
    (by decide) (by decide) (by decide) (by decide) (by decide) (by decide) (by decide)

/-- C8 fails as stated: with a life-time of 10 minutes, the timestamps with physical parts
18,446,744,673,708 and 18,446,744,673,710 (both above the life-time, both below `2^46`)
are in order, yet the first safe point is `2^64 - 2^18` and the second is 0: the `int64`
nanosecond count of the safe-point instant has wrapped past zero in between. -/
theorem safePoint_monotone_counterexample :
    18446744673708 * 262144 ≤ 18446744673710 * 262144 ∧
    18446744673710 * 262144 < 18446744073709551616 ∧
    Milliseconds (Minute * 10) ≤ ExtractPhysical (18446744673708 * 262144) ∧
    Milliseconds (Minute * 10) ≤ ExtractPhysical (18446744673710 * 262144) ∧
    tickSafePoint (18446744673708 * 262144) (Minute * 10) = 18446744073709289472 ∧
    tickSafePoint (18446744673710 * 262144) (Minute * 10) = 0 ∧
    ¬ (tickSafePoint (18446744673708 * 262144) (Minute * 10)
        ≤ tickSafePoint (18446744673710 * 262144) (Minute * 10)) := by
  decide

/-! ## The run-interval gate -/

theorem wrapInt64_wrap_mul (a : Int) :
    wrapInt64 (wrapInt64 a * 1000000000) = wrapInt64 (a * 1000000000) := by
  unfold wrapInt64
  omega

/-- On times away from the ends of `int64`, `Sub` is the exact difference in nanoseconds
when that fits a `Duration`, and saturates otherwise. -/
theorem sub_eq (t u : Time) (ht : t.inRange) (hu : u.inRange) :
    t.Sub u =
      if t.nanos - u.nanos < minDuration then minDuration
      else if maxDuration < t.nanos - u.nanos then maxDuration
      else t.nanos - u.nanos := by
  obtain ⟨tn0, tn1, te0, te1⟩ := ht
  have hu' := hu
  obtain ⟨un0, un1, ue0, ue1⟩ := hu'
  unfold Time.Sub
  simp only []
  have hd : wrapInt64 (wrapInt64 (wrapInt64 (t.ext - u.ext) * Second) + wrapInt32 (t.nsec - u.nsec))
      = wrapInt64 (t.nanos - u.nanos) := by
    unfold Second
    rw [wrapInt64_wrap_mul, wrapInt32_id _ (by omega) (by omega), wrapInt64_add_wrap]
    unfold Time.nanos
    congr 1
    ring
  rw [hd]
  have hD : t.nanos - u.nanos = (t.ext - u.ext) * 1000000000 + (t.nsec - u.nsec) := by
    unfold Time.nanos; ring
  generalize t.nanos - u.nanos = D at hD ⊢
  have hw0 : -9223372036854775808 ≤ wrapInt64 D := by unfold wrapInt64; omega
  have hw1 : wrapInt64 D < 9223372036854775808 := by unfold wrapInt64; omega
  rw [add_eq u (wrapInt64 D) hu hw0 hw1]
  unfold Time.Equal Time.Before minDuration maxDuration
  simp only []
  by_cases c : -9223372036854775808 ≤ D ∧ D ≤ 9223372036854775807
  · have hwD : wrapInt64 D = D := wrapInt64_id D c.1 (by omega)
    rw [hwD]
    have e1 : u.ext + (u.nsec + D) / 1000000000 = t.ext := by omega
    have e2 : (u.nsec + D) % 1000000000 = t.nsec := by omega
    have c1 : ¬ D < -9223372036854775808 := by omega
    have c2 : ¬ 9223372036854775807 < D := by omega
    simp [e1, e2, c1, c2]
  · have hne : wrapInt64 D ≠ D := by
      intro h; rw [h] at hw0 hw1; omega
    generalize wrapInt64 D = d at hne hw0 hw1 ⊢
    have e : ¬ (u.ext + (u.nsec + d) / 1000000000 = t.ext ∧ (u.nsec + d) % 1000000000 = t.nsec) := by
      intro ⟨e1, e2⟩
      apply hne
      omega
    have e' : (decide (u.ext + (u.nsec + d) / 1000000000 = t.ext)
        && decide ((u.nsec + d) % 1000000000 = t.nsec)) = false := by
      simpa using e
    rw [e']
    by_cases c1 : D < -9223372036854775808
    · have b : (decide (t.ext < u.ext) || (decide (t.ext = u.ext) && decide (t.nsec < u.nsec)))
          = true := by
        simp only [Bool.or_eq_true, Bool.and_eq_true, decide_eq_true_eq]
        omega
      simp [b, c1]
    · have c2 : 9223372036854775807 < D := by omega
      have b : (decide (t.ext < u.ext) || (decide (t.ext = u.ext) && decide (t.nsec < u.nsec)))
          = false := by
        simp only [Bool.or_eq_false_iff, Bool.and_eq_false_iff, decide_eq_false_iff_not]
        omega
      simp [b, c1, c2]

/-- C7: with `lastRun = T0` and `runInterval = R`, the gate of `tick` is not due at any
wall-clock time in `[T0, T0 + R)`, is due at `T0 + R` and at every later time, is due
exactly when `clockNow - lastRun ≥ R` (the difference counted in nanoseconds), and with
`lastRun` the zero `Time` it is due for every run interval at every reading of the wall
clock that is not before the Unix epoch. -/
theorem isDue_iff_interval_elapsed (lastRun wallNow : Time) (runInterval : Int)
    (hl : lastRun.inRange) (hn : wallNow.inRange)
    (hR0 : minDuration ≤ runInterval) (hR1 : runInterval ≤ maxDuration) :
    (lastRun.nanos ≤ wallNow.nanos → wallNow.nanos < lastRun.nanos + runInterval →
      isDue lastRun runInterval wallNow = false) ∧
    (lastRun.nanos + runInterval ≤ wallNow.nanos → isDue lastRun runInterval wallNow = true) ∧
    (minDuration < runInterval ∨ minDuration ≤ wallNow.nanos - lastRun.nanos →
      (isDue lastRun runInterval wallNow = true ↔
        wallNow.nanos - lastRun.nanos ≥ runInterval)) ∧
    (wallNow.sinceEpoch → isDue zeroTime runInterval wallNow = true) := by
  have hz : zeroTime.inRange := by decide
  have key : ∀ u : Time, u.inRange → (isDue u runInterval wallNow = true ↔
      ¬ ((if wallNow.nanos - u.nanos < minDuration then minDuration
          else if maxDuration < wallNow.nanos - u.nanos then maxDuration
          else wallNow.nanos - u.nanos) < runInterval)) := by
    intro u hu
    unfold isDue intervalNotPassed Since
    rw [sub_eq wallNow u hn hu]
    simp
  unfold minDuration maxDuration at *
  refine ⟨?_, ?_, ?_, ?_⟩
  · intro h1 h2
    have k := key lastRun hl
    have : ¬ (isDue lastRun runInterval wallNow = true) := by
      rw [k]
      split_ifs <;> omega
    simpa using this
  · intro h1
    rw [key lastRun hl]
    split_ifs <;> omega
  · intro h1
    rw [key lastRun hl]
    split_ifs <;> omega
  · intro hs
    rw [key zeroTime hz]
    obtain ⟨⟨a, b, c, d⟩, e⟩ := hs
    unfold unixToInternal at e
    have hz0 : zeroTime.nanos = 0 := by decide
    rw [hz0]
    unfold Time.nanos
    split_ifs <;> omega

/-- Witness for C7: last run at Unix second 1,700,000,000 and a run interval of 10
minutes: not due one nanosecond before the interval has elapsed, due when it has, and due
with the zero `Time` as last run. -/
theorem isDue_iff_interval_elapsed_witness :
    isDue ⟨0, 63835596800⟩ (Minute * 10) ⟨999999999, 63835597399⟩ = false ∧
    isDue ⟨0, 63835596800⟩ (Minute * 10) ⟨0, 63835597400⟩ = true ∧
    (isDue ⟨0, 63835596800⟩ (Minute * 10) ⟨0, 63835597400⟩ = true ↔
      Time.nanos ⟨0, 63835597400⟩ - Time.nanos ⟨0, 63835596800⟩ ≥ Minute * 10) ∧
    isDue zeroTime (Minute * 10) ⟨0, 63835597400⟩ = true :=
  ⟨(isDue_iff_interval_elapsed ⟨0, 63835596800⟩ ⟨999999999, 63835597399⟩ (Minute * 10)
      (by decide) (by decide) (by decide) (by decide)).1 (by decide) (by decide),
   (isDue_iff_interval_elapsed ⟨0, 63835596800⟩ ⟨0, 63835597400⟩ (Minute * 10)
      (by decide) (by decide) (by decide) (by decide)).2.1 (by decide),
   (isDue_iff_interval_elapsed ⟨0, 63835596800⟩ ⟨0, 63835597400⟩ (Minute * 10)
      (by decide) (by decide) (by decide) (by decide)).2.2.1 (Or.inl (by decide)),
   (isDue_iff_interval_elapsed ⟨0, 63835596800⟩ ⟨0, 63835597400⟩ (Minute * 10)
      (by decide) (by decide) (by decide) (by decide)).2.2.2 (by decide)⟩

/-! ## The scheduler: single flight -/

theorem tick_running (f : Flags) (r : gcRunner) (cv : VersionResult) (wallNow : Time)
    (h : r.isRunning = true) :
    tick f r cv wallNow = ⟨r, none, [LogLine.tick, LogLine.skipRunning]⟩ := by
  unfold tick
  simp [h]

theorem tick_not_due (f : Flags) (r : gcRunner) (cv : VersionResult) (wallNow : Time)
    (h : r.isRunning = false) (hd : isDue r.lastRun f.runInterval wallNow = false) :
    (tick f r cv wallNow).r = r ∧ (tick f r cv wallNow).spawned = none := by
  have hi : intervalNotPassed r.lastRun f.runInterval wallNow = true := by
    unfold isDue at hd
    simpa using hd
  unfold tick
  simp [h, hi]

theorem tick_due (f : Flags) (r : gcRunner) (cv : VersionResult) (wallNow : Time)
    (h : r.isRunning = false) (hd : isDue r.lastRun f.runInterval wallNow = true) :
    tick f r cv wallNow =
      ⟨{ r with isRunning := true }, some (tickSafePoint cv.ver f.gcLifeTime),
        [LogLine.tick] ++ (if cv.err then [LogLine.errTso] else []) ++
          [LogLine.startGC (tickSafePoint cv.ver f.gcLifeTime)]⟩ := by
  have hi : intervalNotPassed r.lastRun f.runInterval wallNow = false := by
    unfold isDue at hd
    simpa using hd
  unfold tick
  simp [h, hi]

/-- A tick either starts nothing and keeps the runner's fields, or starts one goroutine
from a runner that was not running and sets `isRunning`. -/
theorem tick_cases (f : Flags) (r : gcRunner) (cv : VersionResult) (wallNow : Time) :
    ((tick f r cv wallNow).spawned = none ∧ (tick f r cv wallNow).r = r) ∨
    (r.isRunning = false ∧ (tick f r cv wallNow).r = { r with isRunning := true } ∧
      (tick f r cv wallNow).spawned = some (tickSafePoint cv.ver f.gcLifeTime)) := by
  cases hr : r.isRunning
  · cases hd : isDue r.lastRun f.runInterval wallNow
    · exact Or.inl ⟨(tick_not_due f r cv wallNow hr hd).2, (tick_not_due f r cv wallNow hr hd).1⟩
    · right
      rw [tick_due f r cv wallNow hr hd]
      exact ⟨rfl, rfl, rfl⟩
  · left
    rw [tick_running f r cv wallNow hr]
    exact ⟨rfl, rfl⟩

theorem step_tick_running (f : Flags) (s : Sys) (cv : VersionResult) (wallNow : Time)
    (h : s.r.isRunning = true) (hs : s.stopped = false) :
    step f s (Event.tick cv wallNow) =
      { s with log := s.log ++ [LogLine.tick, LogLine.skipRunning] } := by
  simp [step, hs, tick_running f s.r cv wallNow h]

theorem step_tick_due (f : Flags) (s : Sys) (cv : VersionResult) (wallNow : Time)
    (h : s.r.isRunning = false) (hs : s.stopped = false)
    (hd : isDue s.r.lastRun f.runInterval wallNow = true) :
    step f s (Event.tick cv wallNow) =
      { s with r := { s.r with isRunning := true },
               sweeps := s.sweeps ++ [⟨tickSafePoint cv.ver f.gcLifeTime, false⟩],
               dispatched := s.dispatched ++ [tickSafePoint cv.ver f.gcLifeTime],
               log := s.log ++ ([LogLine.tick] ++ (if cv.err then [LogLine.errTso] else []) ++
                  [LogLine.startGC (tickSafePoint cv.ver f.gcLifeTime)]) } := by
  simp [step, hs, tick_due f s.r cv wallNow h hd]

/-- What a tick event does to the state, by cases. -/
theorem step_tick_cases (f : Flags) (s : Sys) (cv : VersionResult) (wallNow : Time) :
    ((step f s (Event.tick cv wallNow)).r = s.r ∧
      (step f s (Event.tick cv wallNow)).sweeps = s.sweeps ∧
      (step f s (Event.tick cv wallNow)).finishCh = s.finishCh ∧
      (step f s (Event.tick cv wallNow)).stopped = s.stopped ∧
      (step f s (Event.tick cv wallNow)).dispatched = s.dispatched ∧
      (step f s (Event.tick cv wallNow)).sent = s.sent) ∨
    (s.r.isRunning = false ∧ s.stopped = false ∧
      (step f s (Event.tick cv wallNow)).r = { s.r with isRunning := true } ∧
      (step f s (Event.tick cv wallNow)).sweeps
        = s.sweeps ++ [⟨tickSafePoint cv.ver f.gcLifeTime, false⟩] ∧
      (step f s (Event.tick cv wallNow)).finishCh = s.finishCh ∧
      (step f s (Event.tick cv wallNow)).stopped = s.stopped ∧
      (step f s (Event.tick cv wallNow)).dispatched
        = s.dispatched ++ [tickSafePoint cv.ver f.gcLifeTime] ∧
      (step f s (Event.tick cv wallNow)).sent = s.sent) := by
  cases hs : s.stopped
  · rcases tick_cases f s.r cv wallNow with ⟨h1, h2⟩ | ⟨h0, h1, h2⟩
    · left
      simp [step, hs, h1, h2]
    · right
      simp [step, hs, h1, h2, h0]
  · left
    simp [step, hs]

theorem run_nil (f : Flags) (s : Sys) : run f s [] = s := rfl

theorem run_cons (f : Flags) (s : Sys) (e : Event) (evs : List Event) :
    run f s (e :: evs) = run f (step f s e) evs := rfl

/-- Every step keeps the single-flight invariant. -/
theorem step_singleFlight (f : Flags) (s : Sys) (e : Event) (h : s.singleFlight) :
    (step f s e).singleFlight := by
  obtain ⟨h1, h2⟩ := h
  cases e with
  | tick cv wallNow =>
    rcases step_tick_cases f s cv wallNow with ⟨a, b, c, _, _, _⟩ | ⟨r0, _, a, b, c, _, _, _⟩
    · unfold Sys.singleFlight
      rw [a, b, c]
      exact ⟨h1, h2⟩
    · have hz : s.sweeps.length + s.finishCh = 0 := by
        have : ¬ (s.sweeps.length + s.finishCh = 1) := by
          rw [h2, r0]; simp
        omega
      unfold Sys.singleFlight
      rw [a, b, c]
      simp only [List.length_append, List.length_singleton]
      constructor
      · omega
      · constructor
        · intro _; trivial
        · intro _; omega
  | gcReturn i jobErr =>
    simp only [step]
    split
    · split
      · exact ⟨h1, h2⟩
      · unfold Sys.singleFlight
        simp only [List.length_set]
        exact ⟨h1, h2⟩
    · exact ⟨h1, h2⟩
  | send i =>
    simp only [step]
    split
    · rename_i sw hsw
      split
      · have hi : i < s.sweeps.length := (List.getElem?_eq_some.mp hsw).1
        unfold Sys.singleFlight
        simp only [List.length_eraseIdx, hi, if_true]
        constructor
        · omega
        · rw [← h2]
          omega
      · exact ⟨h1, h2⟩
    · exact ⟨h1, h2⟩
  | recv =>
    simp only [step]
    split
    · exact ⟨h1, h2⟩
    · rename_i hc
      simp only [Bool.or_eq_true, decide_eq_true_eq, not_or] at hc
      unfold Sys.singleFlight
      simp only []
      constructor
      · omega
      · constructor
        · intro hx; omega
        · intro hx; simp at hx
  | ctxDone =>
    exact ⟨h1, h2⟩

theorem run_singleFlight (f : Flags) (evs : List Event) :
    ∀ s : Sys, s.singleFlight → (run f s evs).singleFlight := by
  induction evs with
  | nil => intro s h; exact h
  | cons e es ih =>
    intro s h
    rw [run_cons]
    exact ih _ (step_singleFlight f s e h)

theorem init_singleFlight : Sys.init.singleFlight := by
  unfold Sys.singleFlight Sys.init newGCRunner
  simp

/-- C10: in every state reachable from the start of the loop by ticks, returns of `RunGC`,
sends, receives (and the loop's exit), the goroutines that have not sent plus the messages
buffered in `finishCh` number at most one, exactly one when `isRunning` is set; so when a
goroutine is at its send the channel is empty and the send does not block. -/
theorem single_slot_invariant (f : Flags) (evs : List Event) :
    (run f Sys.init evs).sweeps.length + (run f Sys.init evs).finishCh ≤ 1 ∧
    ((run f Sys.init evs).sweeps.length + (run f Sys.init evs).finishCh = 1 ↔
      (run f Sys.init evs).r.isRunning = true) ∧
    ((run f Sys.init evs).sweeps ≠ [] → (run f Sys.init evs).finishCh = 0) ∧
    (∀ i : Nat, (run f Sys.init evs).sendBlocked i = false) := by
  obtain ⟨h1, h2⟩ := run_singleFlight f evs Sys.init init_singleFlight
  have h3 : (run f Sys.init evs).sweeps ≠ [] → (run f Sys.init evs).finishCh = 0 := by
    intro hne
    have : 0 < (run f Sys.init evs).sweeps.length := List.length_pos.mpr hne
    omega
  refine ⟨h1, h2, h3, ?_⟩
  intro i
  unfold Sys.sendBlocked finishChCap
  split
  · rename_i sw hsw
    have hi : i < (run f Sys.init evs).sweeps.length := (List.getElem?_eq_some.mp hsw).1
    have hne : (run f Sys.init evs).sweeps ≠ [] := by
      intro h0; rw [h0] at hi; simp at hi
    have := h3 hne
    simp [this]
  · rfl

/-! ## The scheduler: ticks while a sweep is in flight -/

theorem step_gcReturn_frame (f : Flags) (s : Sys) (i : Nat) (jobErr : Bool) :
    (step f s (Event.gcReturn i jobErr)).r = s.r ∧
    (step f s (Event.gcReturn i jobErr)).dispatched = s.dispatched := by
  simp only [step]
  split
  · split <;> exact ⟨rfl, rfl⟩
  · exact ⟨rfl, rfl⟩

theorem step_send_frame (f : Flags) (s : Sys) (i : Nat) :
    (step f s (Event.send i)).r = s.r ∧
    (step f s (Event.send i)).dispatched = s.dispatched := by
  simp only [step]
  split
  · split <;> exact ⟨rfl, rfl⟩
  · exact ⟨rfl, rfl⟩

theorem step_recv_frame (f : Flags) (s : Sys) :
    (step f s Event.recv).r.lastRun = s.r.lastRun ∧
    (step f s Event.recv).dispatched = s.dispatched := by
  simp only [step]
  split <;> exact ⟨rfl, rfl⟩

/-- No step assigns `lastRun`. -/
theorem step_lastRun (f : Flags) (s : Sys) (e : Event) :
    (step f s e).r.lastRun = s.r.lastRun := by
  cases e with
  | tick cv wallNow =>
    rcases step_tick_cases f s cv wallNow with ⟨a, _⟩ | ⟨_, _, a, _⟩
    · rw [a]
    · rw [a]
  | gcReturn i jobErr => rw [(step_gcReturn_frame f s i jobErr).1]
  | send i => rw [(step_send_frame f s i).1]
  | recv => exact (step_recv_frame f s).1
  | ctxDone => rfl

theorem run_lastRun (f : Flags) (evs : List Event) :
    ∀ s : Sys, (run f s evs).r.lastRun = s.r.lastRun := by
  induction evs with
  | nil => intro s; rfl
  | cons e es ih =>
    intro s
    rw [run_cons, ih, step_lastRun]

/-- Every step other than a receive keeps `firstFlight`. -/
theorem step_firstFlight (f : Flags) (s : Sys) (e : Event) (he : e.isRecv = false)
    (h : s.firstFlight) : (step f s e).firstFlight := by
  unfold Sys.firstFlight at *
  cases e with
  | tick cv wallNow =>
    rcases step_tick_cases f s cv wallNow with ⟨a, _, _, _, d, _⟩ | ⟨r0, _, a, _, _, _, d, _⟩
    · rw [a, d]; exact h
    · rw [a, d]
      rw [r0] at h
      simp only [List.length_append, List.length_singleton]
      simp at h
      simp [h]
  | gcReturn i jobErr =>
    rw [(step_gcReturn_frame f s i jobErr).1, (step_gcReturn_frame f s i jobErr).2]
    exact h
  | send i =>
    rw [(step_send_frame f s i).1, (step_send_frame f s i).2]
    exact h
  | recv => simp [Event.isRecv] at he
  | ctxDone => exact h

theorem run_firstFlight (f : Flags) (evs : List Event) :
    ∀ s : Sys, s.firstFlight → (∀ e ∈ evs, e.isRecv = false) → (run f s evs).firstFlight := by
  induction evs with
  | nil => intro s h _; exact h
  | cons e es ih =>
    intro s h hno
    rw [run_cons]
    apply ih
    · exact step_firstFlight f s e (hno e (List.mem_cons_self _ _)) h
    · intro x hx
      exact hno x (List.mem_cons_of_mem _ hx)

/-- While `isRunning` is set and the loop runs, ticks change nothing but the log, where
each of them leaves one "GC is running. Skip." line. -/
theorem run_ticks_running (f : Flags) (ticks : List (VersionResult × Time)) :
    ∀ s : Sys, s.r.isRunning = true → s.stopped = false →
      (run f s (tickEvents ticks)).r = s.r ∧
      (run f s (tickEvents ticks)).sweeps = s.sweeps ∧
      (run f s (tickEvents ticks)).finishCh = s.finishCh ∧
      (run f s (tickEvents ticks)).stopped = s.stopped ∧
      (run f s (tickEvents ticks)).dispatched = s.dispatched ∧
      (run f s (tickEvents ticks)).sent = s.sent ∧
      (run f s (tickEvents ticks)).log.count LogLine.skipRunning
        = s.log.count LogLine.skipRunning + ticks.length := by
  induction ticks with
  | nil =>
    intro s _ _
    simp [tickEvents, run_nil]
  | cons p ps ih =>
    intro s hr hs
    have hstep := step_tick_running f s p.1 p.2 hr hs
    have e : tickEvents (p :: ps) = Event.tick p.1 p.2 :: tickEvents ps := rfl
    rw [e, run_cons, hstep]
    obtain ⟨a, b, c, d, e1, g, h⟩ :=
      ih { s with log := s.log ++ [LogLine.tick, LogLine.skipRunning] } hr hs
    refine ⟨a, b, c, d, e1, g, ?_⟩
    rw [h]
    simp only [List.count_append, List.length_cons]
    have : List.count LogLine.skipRunning [LogLine.tick, LogLine.skipRunning] = 1 := by decide
    omega

theorem init_firstFlight : Sys.init.firstFlight := by
  unfold Sys.firstFlight Sys.init newGCRunner
  simp

/-- C2: from the initial state, along every sequence of events in which the loop receives
no completion, at most one sweep is dispatched; once one is dispatched every further tick
leaves the runner's fields, goroutines and channel as they are and dispatches nothing; and
any number of ticks after the dispatching one add exactly that many "GC is running. Skip."
lines to the log while the dispatch count stays one. -/
theorem single_flight_without_completion (f : Flags) (evs : List Event)
    (hno : ∀ e ∈ evs, e.isRecv = false) :
    (run f Sys.init evs).dispatched.length ≤ 1 ∧
    ((run f Sys.init evs).dispatched.length = 1 →
      ∀ (cv : VersionResult) (wallNow : Time),
        (step f (run f Sys.init evs) (Event.tick cv wallNow)).r = (run f Sys.init evs).r ∧
        (step f (run f Sys.init evs) (Event.tick cv wallNow)).dispatched
          = (run f Sys.init evs).dispatched ∧
        (step f (run f Sys.init evs) (Event.tick cv wallNow)).sweeps
          = (run f Sys.init evs).sweeps ∧
        (step f (run f Sys.init evs) (Event.tick cv wallNow)).finishCh
          = (run f Sys.init evs).finishCh) ∧
    ((run f Sys.init evs).dispatched.length = 1 → (run f Sys.init evs).stopped = false →
      ∀ ticks : List (VersionResult × Time),
        (run f (run f Sys.init evs) (tickEvents ticks)).dispatched.length = 1 ∧
        (run f (run f Sys.init evs) (tickEvents ticks)).r = (run f Sys.init evs).r ∧
        (run f (run f Sys.init evs) (tickEvents ticks)).log.count LogLine.skipRunning
          = (run f Sys.init evs).log.count LogLine.skipRunning + ticks.length) := by
  have hff := run_firstFlight f evs Sys.init init_firstFlight hno
  unfold Sys.firstFlight at hff
  generalize run f Sys.init evs = s at hff ⊢
  have hrun : s.dispatched.length = 1 → s.r.isRunning = true := by
    intro h1
    cases hr : s.r.isRunning
    · rw [hr] at hff
      simp only [Bool.false_eq_true, if_false] at hff
      omega
    · rfl
  refine ⟨?_, ?_, ?_⟩
  · rw [hff]; split <;> omega
  · intro h1 cv wallNow
    have hr := hrun h1
    rcases step_tick_cases f s cv wallNow with ⟨a, b, c, _, d, _⟩ | ⟨r0, _⟩
    · exact ⟨a, d, b, c⟩
    · rw [hr] at r0; cases r0
  · intro h1 hs ticks
    obtain ⟨a, _, _, _, e, _, h⟩ := run_ticks_running f ticks s (hrun h1) hs
    exact ⟨by rw [e]; exact h1, a, h⟩

/-- Witness for C2 (Scenario B): a dispatching tick followed by nine more ticks gives one
dispatch and nine "GC is running. Skip." lines. -/
theorem single_flight_without_completion_witness :
    (run scenarioFlags Sys.init (tickEvents [scenarioTick 0])).dispatched.length = 1 ∧
    (run scenarioFlags (run scenarioFlags Sys.init (tickEvents [scenarioTick 0]))
      (tickEvents ((List.range 9).map (fun k => scenarioTick (k + 1))))).dispatched.length
        = 1 ∧
    (run scenarioFlags (run scenarioFlags Sys.init (tickEvents [scenarioTick 0]))
      (tickEvents ((List.range 9).map (fun k => scenarioTick (k + 1))))).log.count
        LogLine.skipRunning = 0 + 9 :=
  have h := (single_flight_without_completion scenarioFlags (tickEvents [scenarioTick 0])
    (by decide)).2.2 (by decide) (by decide)
    ((List.range 9).map (fun k => scenarioTick (k + 1)))
  ⟨by decide, h.1, h.2.2⟩

/-! ## The scheduler: completion of a sweep -/

theorem step_gcReturn_first (f : Flags) (s : Sys) (sp : Nat) (jobErr : Bool)
    (hsw : s.sweeps = [⟨sp, false⟩]) :
    step f s (Event.gcReturn 0 jobErr) =
      { s with sweeps := [⟨sp, true⟩], log := s.log ++ RunGC f sp jobErr } := by
  simp [step, hsw]

theorem step_send_first (f : Flags) (s : Sys) (sp : Nat)
    (hsw : s.sweeps = [⟨sp, true⟩]) (hch : s.finishCh = 0) :
    step f s (Event.send 0) =
      { s with sweeps := [], finishCh := 1, sent := s.sent + 1 } := by
  simp [step, hsw, hch, finishChCap]

theorem step_recv_ready (f : Flags) (s : Sys) (hs : s.stopped = false)
    (hch : s.finishCh = 1) :
    step f s Event.recv = { s with r := { s.r with isRunning := false }, finishCh := 0 } := by
  simp [step, hs, hch]

/-- A send by a goroutine index that holds no goroutine does nothing. -/
theorem step_send_none (f : Flags) (s : Sys) (i : Nat) (hsw : s.sweeps = []) :
    step f s (Event.send i) = s := by
  simp [step, hsw]

/-- C9: take any state reached from the start in which one dispatched sweep is executing
`RunGC` and the loop is running. Whether the GC job succeeds or fails, `RunGC` returns,
the goroutine then sends one message on `finishCh` (the count of sends grows by exactly
one, the channel holds one message, and no goroutine is left that could send again), ticks
in between change nothing, and once the loop receives the message `isRunning` is false; the
next tick that passes the run-interval gate then dispatches a new sweep. -/
theorem sweep_completion_frees_scheduler (f : Flags) (evs : List Event) (sp : Nat)
    (jobErr : Bool) (ticksA ticksB : List (VersionResult × Time))
    (hsw : (run f Sys.init evs).sweeps = [⟨sp, false⟩])
    (hstop : (run f Sys.init evs).stopped = false) :
    (afterReturn f (run f Sys.init evs) jobErr ticksA).sent = (run f Sys.init evs).sent ∧
    (afterReturn f (run f Sys.init evs) jobErr ticksA).sweeps = [⟨sp, true⟩] ∧
    (afterSend f (run f Sys.init evs) jobErr ticksA ticksB).sent
      = (run f Sys.init evs).sent + 1 ∧
    (afterSend f (run f Sys.init evs) jobErr ticksA ticksB).finishCh = 1 ∧
    (afterSend f (run f Sys.init evs) jobErr ticksA ticksB).sweeps = [] ∧
    (∀ i : Nat, step f (afterSend f (run f Sys.init evs) jobErr ticksA ticksB) (Event.send i)
      = afterSend f (run f Sys.init evs) jobErr ticksA ticksB) ∧
    (afterSend f (run f Sys.init evs) jobErr ticksA ticksB).r.isRunning = true ∧
    (afterRecv f (run f Sys.init evs) jobErr ticksA ticksB).r.isRunning = false ∧
    (afterRecv f (run f Sys.init evs) jobErr ticksA ticksB).finishCh = 0 ∧
    (afterRecv f (run f Sys.init evs) jobErr ticksA ticksB).dispatched
      = (run f Sys.init evs).dispatched ∧
    (∀ (cv : VersionResult) (wallNow : Time),
      isDue (afterRecv f (run f Sys.init evs) jobErr ticksA ticksB).r.lastRun
          f.runInterval wallNow = true →
        (step f (afterRecv f (run f Sys.init evs) jobErr ticksA ticksB)
            (Event.tick cv wallNow)).dispatched
          = (run f Sys.init evs).dispatched ++ [tickSafePoint cv.ver f.gcLifeTime] ∧
        (step f (afterRecv f (run f Sys.init evs) jobErr ticksA ticksB)
            (Event.tick cv wallNow)).sweeps = [⟨tickSafePoint cv.ver f.gcLifeTime, false⟩] ∧
        (step f (afterRecv f (run f Sys.init evs) jobErr ticksA ticksB)
            (Event.tick cv wallNow)).r.isRunning = true) := by
  obtain ⟨i1, i2⟩ := run_singleFlight f evs Sys.init init_singleFlight
  generalize run f Sys.init evs = s at hsw hstop i1 i2 ⊢
  have hch : s.finishCh = 0 := by
    rw [hsw] at i1; simp at i1; exact i1
  have hrun : s.r.isRunning = true := by
    rw [← i2, hsw, hch]; simp
  simp only [afterRecv, afterSend]
  -- `RunGC` returns, then the ticks `ticksA`
  have e1 : afterReturn f s jobErr ticksA =
      run f { s with sweeps := [⟨sp, true⟩], log := s.log ++ RunGC f sp jobErr }
        (tickEvents ticksA) := by
    unfold afterReturn
    rw [run_cons, step_gcReturn_first f s sp jobErr hsw]
  obtain ⟨a1, a2, a3, a4, a5, a6, _⟩ := run_ticks_running f ticksA
    { s with sweeps := [⟨sp, true⟩], log := s.log ++ RunGC f sp jobErr } hrun hstop
  rw [← e1] at a1 a2 a3 a4 a5 a6
  simp only [] at a1 a2 a3 a4 a5 a6
  generalize afterReturn f s jobErr ticksA = s1 at a1 a2 a3 a4 a5 a6 ⊢
  -- the send, then the ticks `ticksB`
  rw [run_cons, step_send_first f s1 sp a2 (by rw [a3, hch])]
  obtain ⟨b1, b2, b3, b4, b5, b6, _⟩ := run_ticks_running f ticksB
    { s1 with sweeps := [], finishCh := 1, sent := s1.sent + 1 }
    (by simp only []; rw [a1]; exact hrun) (by simp only []; rw [a4]; exact hstop)
  simp only [] at b1 b2 b3 b4 b5 b6
  generalize run f { s1 with sweeps := [], finishCh := 1, sent := s1.sent + 1 }
    (tickEvents ticksB) = s2 at b1 b2 b3 b4 b5 b6 ⊢
  -- the receive
  have hs2 : s2.stopped = false := by rw [b4, a4]; exact hstop
  rw [step_recv_ready f s2 hs2 b3]
  refine ⟨a6, a2, by rw [b6, a6], b3, b2, ?_, by rw [b1, a1]; exact hrun, rfl, rfl,
    by simp only []; rw [b5, a5], ?_⟩
  · intro i
    exact step_send_none f s2 i b2
  · intro cv wallNow hd
    rw [step_tick_due f { s2 with r := { s2.r with isRunning := false }, finishCh := 0 }
      cv wallNow rfl hs2 hd]
    refine ⟨?_, ?_, rfl⟩
    · show s2.dispatched ++ [tickSafePoint cv.ver f.gcLifeTime] = _
      rw [b5, a5]
    · show s2.sweeps ++ [⟨tickSafePoint cv.ver f.gcLifeTime, false⟩] = _
      rw [b2]
      rfl

/-- Witness for C9 (Scenario C): the sweep dispatched by the first tick fails; two ticks
pass while it runs and one while its message waits; after the receive the next tick
dispatches again. -/
theorem sweep_completion_frees_scheduler_witness :
    (afterSend scenarioFlags (run scenarioFlags Sys.init (tickEvents [scenarioTick 0])) true
      [scenarioTick 1, scenarioTick 2] [scenarioTick 3]).sent = 0 + 1 ∧
    (afterRecv scenarioFlags (run scenarioFlags Sys.init (tickEvents [scenarioTick 0])) true
      [scenarioTick 1, scenarioTick 2] [scenarioTick 3]).r.isRunning = false ∧
    (step scenarioFlags
      (afterRecv scenarioFlags (run scenarioFlags Sys.init (tickEvents [scenarioTick 0])) true
        [scenarioTick 1, scenarioTick 2] [scenarioTick 3])
      (Event.tick (scenarioTick 4).1 (scenarioTick 4).2)).dispatched
      = [445644642713600000] ++ [tickSafePoint (scenarioTick 4).1.ver (Minute * 10)] :=
  have h := sweep_completion_frees_scheduler scenarioFlags (tickEvents [scenarioTick 0])
    445644642713600000 true [scenarioTick 1, scenarioTick 2] [scenarioTick 3]
    (by decide) (by decide)
  ⟨h.2.2.1, h.2.2.2.2.2.2.2.1,
    (h.2.2.2.2.2.2.2.2.2.2 (scenarioTick 4).1 (scenarioTick 4).2 (by decide)).1⟩

/-! ## Where the runner departs from its description -/

/-- C3 (the code at the failing input): no event assigns `lastRun`, so it is the zero
`Time` in every reachable state. In the scenario, after the sweep dispatched by the first
tick has completed and the loop has received its message, `lastRun` is still the zero
`Time`; the tick one minute after the first one, with a run interval of 10 minutes, finds
the gate due and dispatches a second sweep. -/
theorem completion_leaves_lastRun_unset :
    (∀ (f : Flags) (evs : List Event), (run f Sys.init evs).r.lastRun = zeroTime) ∧
    (afterRecv scenarioFlags (run scenarioFlags Sys.init (tickEvents [scenarioTick 0]))
      false [] []).r = ⟨false, zeroTime⟩ ∧
    scenarioFlags.runInterval = Minute * 10 ∧
    Time.nanos (scenarioTick 1).2 - Time.nanos (scenarioTick 0).2 = Minute ∧
    isDue zeroTime scenarioFlags.runInterval (scenarioTick 1).2 = true ∧
    (step scenarioFlags
      (afterRecv scenarioFlags (run scenarioFlags Sys.init (tickEvents [scenarioTick 0]))
        false [] [])
      (Event.tick (scenarioTick 1).1 (scenarioTick 1).2)).dispatched.length = 2 := by
  refine ⟨?_, by decide, by decide, by decide, by decide, by decide⟩
  intro f evs
  rw [run_lastRun]
  rfl

/-- C4 (the code at the failing input): the error of the oracle call changes only what
`tick` logs, not what it does. From the initial runner, a tick whose oracle call fails
(version 0 returned with the error) sets `isRunning` and starts a sweep with the safe
point computed from version 0. -/
theorem tick_continues_after_oracle_error :
    (∀ (f : Flags) (r : gcRunner) (ver : Nat) (wallNow : Time),
      (tick f r ⟨ver, true⟩ wallNow).r = (tick f r ⟨ver, false⟩ wallNow).r ∧
      (tick f r ⟨ver, true⟩ wallNow).spawned = (tick f r ⟨ver, false⟩ wallNow).spawned) ∧
    tick scenarioFlags newGCRunner ⟨0, true⟩ (scenarioTick 0).2
      = ⟨⟨true, zeroTime⟩, some 18446743916423151616,
          [LogLine.tick, LogLine.errTso, LogLine.startGC 18446743916423151616]⟩ ∧
    (step scenarioFlags Sys.init (Event.tick ⟨0, true⟩ (scenarioTick 0).2)).r.isRunning
      = true ∧
    (step scenarioFlags Sys.init (Event.tick ⟨0, true⟩ (scenarioTick 0).2)).dispatched
      = [18446743916423151616] := by
  refine ⟨?_, by decide, by decide, by decide⟩
  intro f r ver wallNow
  cases hr : r.isRunning
  · cases hd : isDue r.lastRun f.runInterval wallNow
    · obtain ⟨a1, a2⟩ := tick_not_due f r ⟨ver, true⟩ wallNow hr hd
      obtain ⟨b1, b2⟩ := tick_not_due f r ⟨ver, false⟩ wallNow hr hd
      exact ⟨by rw [a1, b1], by rw [a2, b2]⟩
    · rw [tick_due f r ⟨ver, true⟩ wallNow hr hd, tick_due f r ⟨ver, false⟩ wallNow hr hd]
      exact ⟨rfl, rfl⟩
  · rw [tick_running f r ⟨ver, true⟩ wallNow hr, tick_running f r ⟨ver, false⟩ wallNow hr]
    exact ⟨rfl, rfl⟩

/-! ## Startup -/

/-- C6: with a life-time below 10 minutes `main` stops at the fatal log right after
parsing the flags: no client is opened and the loop is not started; with a life-time of at
least 10 minutes the check passes, `main` goes on to open the store, and when both clients
open it starts the loop. -/
theorem startup_lifeTime_floor (f : Flags) (openErr pdErr : Bool) :
    (f.gcLifeTime < Minute * 10 →
      mainStartup f openErr pdErr = [StartupStep.flagParse, StartupStep.fatalLifeTime] ∧
      StartupStep.driverOpen ∉ mainStartup f openErr pdErr ∧
      StartupStep.pdNewClient ∉ mainStartup f openErr pdErr ∧
      StartupStep.runGCLoop ∉ mainStartup f openErr pdErr) ∧
    (Minute * 10 ≤ f.gcLifeTime →
      StartupStep.fatalLifeTime ∉ mainStartup f openErr pdErr ∧
      (mainStartup f openErr pdErr).take 3
        = [StartupStep.flagParse, StartupStep.logConfig, StartupStep.driverOpen] ∧
      (openErr = false → pdErr = false →
        mainStartup f openErr pdErr
          = [StartupStep.flagParse, StartupStep.logConfig, StartupStep.driverOpen,
              StartupStep.pdNewClient, StartupStep.signalNotify, StartupStep.runGCLoop])) := by
  constructor
  · intro h
    have e : mainStartup f openErr pdErr = [StartupStep.flagParse, StartupStep.fatalLifeTime] := by
      unfold mainStartup
      simp [h]
    rw [e]
    exact ⟨rfl, by decide, by decide, by decide⟩
  · intro h
    have hn : ¬ f.gcLifeTime < Minute * 10 := not_lt.mpr h
    unfold mainStartup
    simp only [hn, if_false]
    cases openErr <;> cases pdErr <;> simp [createClient]

/-- Witness for C6: one nanosecond below 10 minutes is refused, 10 minutes is accepted. -/
theorem startup_lifeTime_floor_witness :
    mainStartup { scenarioFlags with gcLifeTime := Minute * 10 - 1 } false false
      = [StartupStep.flagParse, StartupStep.fatalLifeTime] ∧
    mainStartup scenarioFlags false false
      = [StartupStep.flagParse, StartupStep.logConfig, StartupStep.driverOpen,
          StartupStep.pdNewClient, StartupStep.signalNotify, StartupStep.runGCLoop] :=
  ⟨((startup_lifeTime_floor { scenarioFlags with gcLifeTime := Minute * 10 - 1 } false false).1
      (by decide)).1,
   ((startup_lifeTime_floor scenarioFlags false false).2 (by decide)).2.2 rfl rfl⟩

/-- Witness for C10: after the first tick has dispatched a sweep and its `RunGC` has
returned, one goroutine is at its send, the channel is empty and the send is not blocked. -/
theorem single_slot_invariant_witness :
    (run scenarioFlags Sys.init
      (tickEvents [scenarioTick 0] ++ [Event.gcReturn 0 false])).sweeps.length = 1 ∧
    (run scenarioFlags Sys.init
      (tickEvents [scenarioTick 0] ++ [Event.gcReturn 0 false])).finishCh = 0 ∧
    (run scenarioFlags Sys.init
      (tickEvents [scenarioTick 0] ++ [Event.gcReturn 0 false])).sendBlocked 0 = false :=
  have h := single_slot_invariant scenarioFlags
    (tickEvents [scenarioTick 0] ++ [Event.gcReturn 0 false])
  ⟨by decide, h.2.2.1 (by decide), h.2.2.2 0⟩

end GCRunner
